import Mathlib

/-!
Verification of the `sg4danalyser` repository core: the cache-synchronization
protocol (`cache_manager.py`), the digit-frequency analyzer (`analyzer.py`),
the number filter (`filter.py`) and the walk-forward backtest engine
(`backtest.py`).  Dates are modelled as natural numbers (days), pandas
DataFrames as lists of `Record` rows (the DataFrame index is the `date`
field), Python floats as rationals, and Python exceptions as `Option`/`Except`
results (`none` / `.error` marks a raised exception).
-/

/-- Lexicographic comparison of character lists by code point, the order
Python uses when sorting strings. -/
def lexLeB : List Char → List Char → Bool
  | [], _ => true
  | _ :: _, [] => false
  | a :: as, b :: bs =>
    if a.toNat < b.toNat then true
    else if b.toNat < a.toNat then false
    else lexLeB as bs

/-- Python `sorted` order on strings: lexicographic by code point. -/
def strLeB (a b : String) : Bool := lexLeB a.data b.data

/-- Insert an element into a list, going before the first element `y` with
`le x y`; the building block of a stable insertion sort. -/
def insertBy (le : α → α → Bool) (x : α) : List α → List α
  | [] => [x]
  | y :: ys => if le x y then x :: y :: ys else y :: insertBy le x ys

/-- Stable insertion sort with a boolean (non-strict) comparator; models
Python's stable `sorted`. -/
def sortListBy (le : α → α → Bool) (l : List α) : List α := l.foldr (insertBy le) []

/-- Python `sorted` on a collection of strings. -/
def sortStr (l : List String) : List String := sortListBy strLeB l

/-- Python `sorted` on a collection of digits 0-9. -/
def sortFin (l : List (Fin 10)) : List (Fin 10) := sortListBy (fun a b => decide (a.val ≤ b.val)) l

/-- Python `str.strip()` on the character list of a string: drop whitespace
from both ends. -/
def pyStrip (s : List Char) : List Char :=
  ((s.dropWhile Char.isWhitespace).reverse.dropWhile Char.isWhitespace).reverse

/-- A row of the results DataFrame built by `data_fetcher.fetch_fd_results`:
the `Date` index value and the `Prize Number` / `Prize Type` columns. -/
structure Record where
  date : Nat
  prizeNumber : String
  prizeType : String
deriving DecidableEq

/-- Constant `FD_FIRST_PRIZE_CLASS` from `constants.py`. -/
def FD_FIRST_PRIZE_CLASS : String := "tdFirstPrize"

/-- Constant `TOP_3_PRIZE_TYPES` from `constants.py`. -/
def TOP_3_PRIZE_TYPES : List String := ["tdFirstPrize", "tdSecondPrize", "tdThirdPrize"]

/-- Constant `DEFAULT_PRIZE_WEIGHTS` from `constants.py`, as the lookup
`weights.get(prize_type, 1.0)` used by the analyzer: Top-3 classes weigh 1.0,
starter/consolation weigh 0.3, anything else gets the default 1.0. -/
def DEFAULT_PRIZE_WEIGHTS : String → ℚ := fun pt =>
  if pt = "tbodyStarterPrizes" ∨ pt = "tbodyConsolationPrizes" then 3 / 10 else 1

/-- Maximum date of a DataFrame (`df.index.max().date()`); only used on
nonempty frames. -/
def maxDate (rows : List Record) : Nat := (rows.map (fun r => r.date)).foldr max 0

/-- The boolean mask slice `(df.index >= date_from) & (df.index <= date_to)`
used by `fetch_with_cache` to cut a frame to the requested range. -/
def sliceRange (date_from date_to : Nat) (rows : List Record) : List Record :=
  rows.filter (fun r => date_from ≤ r.date ∧ r.date ≤ date_to)

/-- Pandas `df[~df.index.duplicated(keep='last')]` from `cache_manager.py`
line 119: a row survives only when no later row carries the same index value
(the index is the draw date alone). -/
def dedupKeepLast : List Record → List Record
  | [] => []
  | r :: rs => if rs.any (fun s => s.date = r.date) then dedupKeepLast rs else r :: dedupKeepLast rs

/-- Pandas `df.sort_index()`: sort rows by the date index, ascending. -/
def sortByDate (rows : List Record) : List Record :=
  sortListBy (fun r s => decide (r.date ≤ s.date)) rows

/-- Result of one `fetch_with_cache` call: the returned DataFrame, the cache
contents after the call (what `save_cache` persisted, or the prior state),
and the list of `(date_from, date_to)` arguments of the upstream
`fetch_fd_results` calls it issued. -/
structure SyncResult where
  result : List Record
  newCache : List Record
  fetchCalls : List (Nat × Nat)
deriving DecidableEq

/-- `cache_manager.fetch_with_cache`, with the upstream fetch passed in as an
oracle: `fetch a b = none` models `fetch_fd_results` raising an exception
(which `fetch_with_cache` does not catch), `some rows` a returned frame.  The
cache state is the loaded list of rows; the empty list plays the role of both
a missing cache file and an empty cached frame (the source treats the two
alike at line 85).  An overall `none` result models the exception propagating
to the caller of `fetch_with_cache`. -/
def fetch_with_cache (fetch : Nat → Nat → Option (List Record)) (today : Nat)
    (date_from date_to : Nat) (cache : List Record) : Option SyncResult :=
  if cache.isEmpty then
    match fetch date_from date_to with
    | none => none
    | some df => some ⟨df, if df.isEmpty then [] else df, [(date_from, date_to)]⟩
  else
    let max_cached_date := maxDate cache
    if today ≤ max_cached_date then
      some ⟨sliceRange date_from date_to cache, cache, []⟩
    else
      let fetch_from := max (max_cached_date + 1) date_from
      match fetch fetch_from date_to with
      | none => none
      | some new_df =>
        if new_df.isEmpty then
          some ⟨sliceRange date_from date_to cache, cache, [(fetch_from, date_to)]⟩
        else
          let combined_df := sortByDate (dedupKeepLast (cache ++ new_df))
          some ⟨sliceRange date_from date_to combined_df, combined_df, [(fetch_from, date_to)]⟩

/-- First-digit index of a digit character: `'0'` maps to 0, ..., `'9'` to 9
(guarded by `Char.isDigit` at every use site; the fallback 0 is never hit
there). -/
def digitFin (c : Char) : Fin 10 :=
  if h : c.toNat - 48 < 10 then ⟨c.toNat - 48, h⟩ else 0

/-- The digit character `'0' + d`, the string key of digit `d` in the Python
count dictionaries. -/
def digitChar (d : Fin 10) : Char := Char.ofNat (48 + d.val)

/-- One iteration of the loop in `analyzer.extract_first_digits` (lines
28-32): guard `len(str(prize_num)) >= 1`, then `str(prize_num).strip()[0]` --
which raises `IndexError` (modelled `.error ()`) when the stripped string is
empty -- then keep the character only if `first_digit.isdigit()`. -/
def extractOne (s : String) : Except Unit (Option Char) :=
  if 1 ≤ s.length then
    match pyStrip s.data with
    | [] => .error ()
    | c :: _ => .ok (if c.isDigit then some c else none)
  else .ok none

/-- The loop of `analyzer.extract_first_digits` over the `Prize Number`
column, stopping at the first raised exception. -/
def extractLoop : List String → Except Unit (List Char)
  | [] => .ok []
  | s :: rest =>
    match extractOne s with
    | .error e => .error e
    | .ok d? =>
      match extractLoop rest with
      | .error e => .error e
      | .ok ds => .ok (match d? with | some c => c :: ds | none => ds)

/-- `analyzer.extract_first_digits(df, prize_types)`: optionally filter the
frame by prize type, then collect first digits of the `Prize Number` column.
`.error ()` models an `IndexError` escaping the loop. -/
def extract_first_digits (df : List Record) (prize_types : Option (List String)) :
    Except Unit (List Char) :=
  let filtered_df := match prize_types with
    | none => df
    | some ts => df.filter (fun r => r.prizeType ∈ ts)
  extractLoop (filtered_df.map (fun r => r.prizeNumber))

/-- `analyzer.count_digits`: occurrences of each digit character `'0'..'9'`
in a list of first-digit characters (characters outside `'0'..'9'` hit no
key of the dictionary and are ignored). -/
def count_digits (first_digits : List Char) : Fin 10 → Nat :=
  fun d => (first_digits.filter (fun c => c = digitChar d)).length

/-- First digit of a prize number as used by
`analyzer.analyze_first_digit_weighted` (lines 72-75): strip the string,
require it nonempty with a numeric leading character. -/
def firstDigitOf (s : String) : Option (Fin 10) :=
  match pyStrip s.data with
  | [] => none
  | c :: _ => if c.isDigit then some (digitFin c) else none

/-- `analyzer.analyze_first_digit_weighted`: per-digit sum of
`weights.get(prize_type, 1.0)` over the rows whose prize number has that
first digit. -/
def analyze_first_digit_weighted (df : List Record) (weights : String → ℚ) : Fin 10 → ℚ :=
  fun d => ((df.filter (fun r => firstDigitOf r.prizeNumber = some d)).map
    (fun r => weights r.prizeType)).sum

/-- `analyzer.bayesian_smoothing`: `(counts[d] + alpha) / (total + 10*alpha)`
with `10 = len(digit_counts)` the number of digit keys. -/
def bayesian_smoothing (digit_counts : Fin 10 → ℚ) (alpha : ℚ) : Fin 10 → ℚ :=
  let total_count := ∑ e, digit_counts e
  let denominator := total_count + 10 * alpha
  fun d => (digit_counts d + alpha) / denominator

/-- Return dictionary of `analyzer.chi_square_test_uniform`; `observed` and
`expected` are keys only present in the non-degenerate branch. -/
structure Chi2Result where
  chi2 : ℚ
  pvalue : ℚ
  is_uniform : Bool
  expected_per_digit : ℚ
  degrees_of_freedom : Nat
  observed : Option (List ℚ)
  expected : Option (List ℚ)

/-- `analyzer.chi_square_test_uniform` with `scipy.stats.chisquare` (an
external library call producing a floating-point statistic and p-value)
abstracted as the oracle argument taking the observed and expected lists. -/
def chi_square_test_uniform (chisquare : List ℚ → List ℚ → ℚ × ℚ)
    (digit_counts : Fin 10 → ℚ) : Chi2Result :=
  let observed := (List.finRange 10).map digit_counts
  let total := observed.sum
  let expected_per_digit := if 0 < total then total / 10 else 0
  if total = 0 then ⟨0, 1, true, 0, 9, none, none⟩
  else
    let expected := List.replicate 10 expected_per_digit
    let r := chisquare observed expected
    ⟨r.1, r.2, decide ((5 : ℚ) / 100 < r.2), expected_per_digit, 9, some observed, some expected⟩

/-- `analyzer.select_digits_by_probability`: stable descending sort of the
digit/probability pairs (Python `sorted(..., reverse=True)` keeps the
ascending-digit insertion order of the dictionary on ties), then the first
`top_k` digits. -/
def select_digits_by_probability (probabilities : Fin 10 → ℚ) (top_k : Nat) : List (Fin 10) :=
  (sortListBy (fun a b => decide (probabilities b ≤ probabilities a)) (List.finRange 10)).take top_k

/-- Body of `analyzer.select_low_occurrence_digits` after the threshold is
fixed: keep digits with count at or below the threshold; if none qualify,
fall back to the `max(1, 10 // 2) = 5` digits of lowest count (stable
ascending sort by count); finally return the digits sorted. -/
def selectLowBody (digit_counts : Fin 10 → ℚ) (threshold : ℚ) : List (Fin 10) :=
  let selected := (List.finRange 10).filter (fun d => digit_counts d ≤ threshold)
  let selected :=
    if selected = [] then
      ((sortListBy (fun a b => decide (digit_counts a ≤ digit_counts b))
        (List.finRange 10)).take (max 1 (10 / 2)))
    else selected
  sortFin selected

/-- `analyzer.select_low_occurrence_digits`: with threshold `None`, a zero
total returns all ten digits at once; otherwise the threshold defaults to
the mean count `total / 10`. -/
def select_low_occurrence_digits (digit_counts : Fin 10 → ℚ)
    (min_count_threshold : Option ℚ) : List (Fin 10) :=
  match min_count_threshold with
  | none =>
    let total_counts := ∑ e, digit_counts e
    if total_counts = 0 then List.finRange 10
    else selectLowBody digit_counts (total_counts / 10)
  | some t => selectLowBody digit_counts t

/-- The set `winning_numbers_6_months` of `filter.py` line 37: every unique
prize number of the 6-month frame, any category. -/
def winningNumbers6 (past6 : List Record) : List String :=
  (past6.map (fun r => r.prizeNumber)).dedup

/-- The set `top_3_numbers_1_year` of `filter.py` lines 51-52: unique prize
numbers of Top-3-category rows of the 1-year frame. -/
def top3Numbers1Year (past1 : List Record) : List String :=
  ((past1.filter (fun r => r.prizeType ∈ TOP_3_PRIZE_TYPES)).map (fun r => r.prizeNumber)).dedup

/-- Membership in `numbers_appeared_multiple` of `filter.py` lines 70-71: the
prize number occurs more than once in the 1-year frame. -/
def appearsMultiple (past1 : List Record) (n : String) : Bool :=
  decide (1 < (past1.map (fun r => r.prizeNumber)).count n)

/-- Running candidate set `filtered_after_6_months` of `filter.py` line 44. -/
def filteredAfter6 (numbers : List String) (past6 : List Record) : List String :=
  (numbers.dedup).filter (fun n => n ∉ winningNumbers6 past6)

/-- Running candidate set `filtered_after_top3` of `filter.py` lines 59/63. -/
def filteredAfterTop3 (numbers : List String) (past6 past1 : List Record) : List String :=
  if past1 = [] then filteredAfter6 numbers past6
  else (filteredAfter6 numbers past6).filter (fun n => n ∉ top3Numbers1Year past1)

/-- `filter.filter_numbers_by_history`: three exclusion passes over the
candidate set, each branch mirroring a line of the source.  The return order
is the Python tuple `(filtered_numbers, appeared_in_6_months,
appeared_in_top3_1year, appeared_multiple_1year)`. -/
def filter_numbers_by_history (numbers : List String) (past6 past1 : List Record) :
    List String × List String × List String × List String :=
  let numbers_set := numbers.dedup
  let appeared_in_6_months :=
    sortStr (numbers_set.filter (fun n => n ∈ winningNumbers6 past6))
  let appeared_in_top3_1year :=
    if past1 = [] then []
    else sortStr ((filteredAfter6 numbers past6).filter (fun n => n ∈ top3Numbers1Year past1))
  let appeared_multiple_1year :=
    if past1 = [] then []
    else sortStr ((filteredAfterTop3 numbers past6 past1).filter (fun n => appearsMultiple past1 n))
  let filtered_numbers :=
    if past1 = [] then filteredAfterTop3 numbers past6 past1
    else (filteredAfterTop3 numbers past6 past1).filter (fun n => ¬ appearsMultiple past1 n)
  (sortStr filtered_numbers, appeared_in_6_months, appeared_in_top3_1year, appeared_multiple_1year)

/-- First digit character of a prize string as `extract_first_digits`
computes it: `None` when the stripped string is empty or starts with a
non-digit. -/
def headDigitChar (s : String) : Option Char :=
  match pyStrip s.data with
  | [] => none
  | c :: _ => if c.isDigit then some c else none

/-- `utils`-style helper used by the backtest: `df.index.unique()` followed
by `sort_values()`, i.e. the distinct draw dates in ascending order. -/
def uniqueDatesSorted (df : List Record) : List Nat :=
  sortListBy (fun a b => decide (a ≤ b)) (df.map (fun r => r.date)).dedup

/-- Python `max` over the window-size list (meaningful for nonempty lists,
as in the source where the default is `[12, 52]`). -/
def maxNat (l : List Nat) : Nat := l.foldr max 0

/-- Accuracy cell `{'correct': _, 'total': _}` of `backtest.py`, with the
`'rate'` key added after the loop only when `total > 0`. -/
structure AccCell where
  correct : Nat
  total : Nat
  rate : Option ℚ

/-- The `'chi2_tests'` tally of `backtest.py`. -/
structure Chi2Tally where
  uniform : Nat
  non_uniform : Nat
  total : Nat

/-- The per-window result dictionary of `backtest.py` (note the source never
increments `'total_tests'`; it stays 0). -/
structure WindowResult where
  window_size : Nat
  total_tests : Nat
  accuracy : List (Nat × AccCell)
  chi2_tests : Chi2Tally

/-- Update the accuracy dictionary at key `top_k`: `total += 1` and
`correct += 1` on a hit. -/
def accBump (acc : List (Nat × AccCell)) (top_k : Nat) (hit : Bool) : List (Nat × AccCell) :=
  acc.map (fun p =>
    if p.1 = top_k then
      (p.1, ⟨p.2.correct + (if hit then 1 else 0), p.2.total + 1, p.2.rate⟩)
    else p)

/-- One iteration of the inner loop of `backtest.backtest_digit_prediction`
(lines 51-87) for test index `i`; `.error ()` models the `IndexError` the
source would raise at line 65 on a whitespace-only first-prize number. -/
def backtestStep (chisquare : List ℚ → List ℚ → ℚ × ℚ) (df : List Record)
    (unique_dates : List Nat) (window_size : Nat) (top_k_list : List Nat)
    (weights : String → ℚ) (alpha : ℚ) (st : WindowResult) (i : Nat) :
    Except Unit WindowResult :=
  let test_date := unique_dates.getD i 0
  let train_dates := (unique_dates.drop (i - window_size)).take window_size
  let train_df := df.filter (fun r => r.date ∈ train_dates)
  let test_df := df.filter (fun r => r.date = test_date)
  match test_df.filter (fun r => r.prizeType = FD_FIRST_PRIZE_CLASS) with
  | [] => .ok st
  | r :: _ =>
    match pyStrip r.prizeNumber.data with
    | [] => .error ()
    | c :: _ =>
      if c.isDigit then
        let weighted_counts := analyze_first_digit_weighted train_df weights
        let probabilities := bayesian_smoothing weighted_counts alpha
        let chi2_result := chi_square_test_uniform chisquare weighted_counts
        let st1 : WindowResult :=
          ⟨st.window_size, st.total_tests, st.accuracy,
           ⟨st.chi2_tests.uniform + (if chi2_result.is_uniform then 1 else 0),
            st.chi2_tests.non_uniform + (if chi2_result.is_uniform then 0 else 1),
            st.chi2_tests.total + 1⟩⟩
        .ok (top_k_list.foldl (fun s top_k =>
          let predicted := select_digits_by_probability probabilities top_k
          ⟨s.window_size, s.total_tests,
           accBump s.accuracy top_k (digitFin c ∈ predicted), s.chi2_tests⟩) st1)
      else .ok st

/-- Left fold of `backtestStep` over the test indices, stopping at the first
raised exception. -/
def backtestLoop (f : WindowResult → Nat → Except Unit WindowResult) :
    List Nat → WindowResult → Except Unit WindowResult
  | [], st => .ok st
  | i :: is, st =>
    match f st i with
    | .error e => .error e
    | .ok st' => backtestLoop f is st'

/-- One window of `backtest.backtest_digit_prediction`: run the walk-forward
loop from index `window_size` to the last draw, then fill in the `'rate'`
keys (`correct / total` whenever `total > 0`). -/
def runWindow (chisquare : List ℚ → List ℚ → ℚ × ℚ) (df : List Record)
    (unique_dates : List Nat) (top_k_list : List Nat) (weights : String → ℚ)
    (alpha : ℚ) (window_size : Nat) : Except Unit WindowResult :=
  let init : WindowResult :=
    ⟨window_size, 0, top_k_list.map (fun k => (k, ⟨0, 0, none⟩)), ⟨0, 0, 0⟩⟩
  match backtestLoop (backtestStep chisquare df unique_dates window_size top_k_list weights alpha)
      (List.range' window_size (unique_dates.length - window_size)) init with
  | .error e => .error e
  | .ok st =>
    .ok ⟨st.window_size, st.total_tests,
      st.accuracy.map (fun p =>
        if 0 < p.2.total then (p.1, ⟨p.2.correct, p.2.total, some ((p.2.correct : ℚ) / p.2.total)⟩)
        else p),
      st.chi2_tests⟩

/-- `backtest.backtest_digit_prediction` with `scipy.stats.chisquare`
abstracted as an oracle.  The insufficient-data guard (lines 32-37) returns
the explicit empty dictionary `[]`; `.error` models an exception escaping
the loop. -/
def backtest_digit_prediction (chisquare : List ℚ → List ℚ → ℚ × ℚ) (df : List Record)
    (window_sizes top_k_list : List Nat) (weights : String → ℚ) (alpha : ℚ) :
    Except Unit (List (Nat × WindowResult)) :=
  let unique_dates := uniqueDatesSorted df
  if unique_dates.length < maxNat window_sizes + 10 then .ok []
  else
    (window_sizes.foldl (fun acc w =>
      match acc with
      | .error e => .error e
      | .ok rs =>
        match runWindow chisquare df unique_dates top_k_list weights alpha w with
        | .error e => .error e
        | .ok res => .ok (rs ++ [(w, res)])) (.ok []))

/-- Lexicographic byte-wise order on character lists is total. -/
theorem lexLeB_total : ∀ a b : List Char, lexLeB a b = true ∨ lexLeB b a = true
  | [], _ => Or.inl rfl
  | _ :: _, [] => Or.inr rfl
  | a :: as, b :: bs => by
    rcases Nat.lt_trichotomy a.toNat b.toNat with h | h | h
    · left; simp [lexLeB, h]
    · have hba : ¬ b.toNat < a.toNat := by omega
      have hab : ¬ a.toNat < b.toNat := by omega
      rcases lexLeB_total as bs with ih | ih
      · left; simp [lexLeB, hab, hba, ih]
      · right; simp [lexLeB, hab, hba, ih]
    · right; simp [lexLeB, h]

/-- Lexicographic byte-wise order on character lists is transitive. -/
theorem lexLeB_trans : ∀ a b c : List Char,
    lexLeB a b = true → lexLeB b c = true → lexLeB a c = true
  | [], _, _, _, _ => rfl
  | _ :: _, [], _, h, _ => by simp [lexLeB] at h
  | _ :: _, _ :: _, [], _, h => by simp [lexLeB] at h
  | a :: as, b :: bs, c :: cs, h1, h2 => by
    simp only [lexLeB] at h1 h2 ⊢
    rcases Nat.lt_trichotomy a.toNat b.toNat with hab | hab | hab
    · rcases Nat.lt_trichotomy b.toNat c.toNat with hbc | hbc | hbc
      · rw [if_pos (by omega)]
      · rw [if_pos (by omega)]
      · rw [if_neg (by omega), if_pos (by omega)] at h2
        exact absurd h2 (by simp)
    · rcases Nat.lt_trichotomy b.toNat c.toNat with hbc | hbc | hbc
      · rw [if_pos (by omega)]
      · rw [if_neg (by omega), if_neg (by omega)] at h1
        rw [if_neg (by omega), if_neg (by omega)] at h2
        rw [if_neg (by omega), if_neg (by omega)]
        exact lexLeB_trans as bs cs h1 h2
      · rw [if_neg (by omega), if_pos (by omega)] at h2
        exact absurd h2 (by simp)
    · rw [if_neg (by omega), if_pos (by omega)] at h1
      exact absurd h1 (by simp)

/-- The Python string order `strLeB` is total. -/
theorem strLeB_total (a b : String) : strLeB a b = true ∨ strLeB b a = true :=
  lexLeB_total a.data b.data

/-- The Python string order `strLeB` is transitive. -/
theorem strLeB_trans (a b c : String) :
    strLeB a b = true → strLeB b c = true → strLeB a c = true :=
  lexLeB_trans a.data b.data c.data

/-- Membership through `insertBy`. -/
theorem mem_insertBy (le : α → α → Bool) (x : α) (l : List α) (a : α) :
    a ∈ insertBy le x l ↔ a = x ∨ a ∈ l := by
  induction l with
  | nil => simp [insertBy]
  | cons y ys ih =>
    simp only [insertBy]
    split
    · simp [List.mem_cons]
    · simp only [List.mem_cons, ih]
      tauto

/-- Inserting into a sorted list keeps it sorted, for a total transitive
boolean comparator. -/
theorem sorted_insertBy (le : α → α → Bool)
    (htot : ∀ a b, le a b = true ∨ le b a = true)
    (htr : ∀ a b c, le a b = true → le b c = true → le a c = true)
    (x : α) (l : List α) (h : List.Sorted (fun a b => le a b = true) l) :
    List.Sorted (fun a b => le a b = true) (insertBy le x l) := by
  induction l with
  | nil => simp [insertBy]
  | cons y ys ih =>
    rw [List.sorted_cons] at h
    obtain ⟨hy, hys⟩ := h
    simp only [insertBy]
    split
    · rename_i hxy
      rw [List.sorted_cons]
      refine ⟨?_, List.sorted_cons.mpr ⟨hy, hys⟩⟩
      intro b hb
      rcases List.mem_cons.mp hb with rfl | hb
      · exact hxy
      · exact htr x y b hxy (hy b hb)
    · rename_i hxy
      have hyx : le y x = true := by
        rcases htot x y with h | h
        · exact absurd h hxy
        · exact h
      rw [List.sorted_cons]
      refine ⟨?_, ih hys⟩
      intro b hb
      rcases (mem_insertBy le x ys b).mp hb with rfl | hb
      · exact hyx
      · exact hy b hb

/-- `sortListBy` returns a sorted list, for a total transitive boolean
comparator. -/
theorem sorted_sortListBy (le : α → α → Bool)
    (htot : ∀ a b, le a b = true ∨ le b a = true)
    (htr : ∀ a b c, le a b = true → le b c = true → le a c = true)
    (l : List α) : List.Sorted (fun a b => le a b = true) (sortListBy le l) := by
  induction l with
  | nil => simp [sortListBy]
  | cons a l ih => exact sorted_insertBy le htot htr a _ ih

/-- `sortListBy` preserves membership. -/
theorem mem_sortListBy (le : α → α → Bool) (l : List α) (a : α) :
    a ∈ sortListBy le l ↔ a ∈ l := by
  induction l with
  | nil => simp [sortListBy]
  | cons b l ih =>
    show a ∈ insertBy le b (sortListBy le l) ↔ _
    rw [mem_insertBy]
    simp [ih, List.mem_cons]

/-- `sortListBy` sends the empty list, and only it, to the empty list. -/
theorem sortListBy_eq_nil (le : α → α → Bool) (l : List α) :
    sortListBy le l = [] ↔ l = [] := by
  constructor
  · intro h
    cases l with
    | nil => rfl
    | cons a l =>
      have : a ∈ sortListBy le (a :: l) := (mem_sortListBy le _ a).mpr (List.mem_cons_self a l)
      rw [h] at this
      exact absurd this (List.not_mem_nil a)
  · intro h; subst h; rfl

/-- `sortStr` output is always lexicographically sorted. -/
theorem sortStr_sorted (l : List String) :
    List.Sorted (fun a b => strLeB a b = true) (sortStr l) :=
  sorted_sortListBy strLeB strLeB_total strLeB_trans l

/-- `sortStr` preserves membership. -/
theorem mem_sortStr (l : List String) (a : String) : a ∈ sortStr l ↔ a ∈ l :=
  mem_sortListBy strLeB l a

/-- Claim C1: the merge step of `fetch_with_cache` is claimed to drop a
record only in favour of a newly fetched record with the same logical key
`(date, prize_category, position)` and to retain every record with a
distinct logical key.  The source dedups on the date index alone
(`combined_df.index.duplicated(keep='last')`), so it drops records whose
logical keys are distinct: here the newly fetched First-prize and
Second-prize rows of day 2 have different categories, yet only the last row
of day 2 survives the merge — the new record `⟨2, "2222", "tdFirstPrize"⟩`
is absent from both the merged cache and the returned frame. -/
theorem C1_merge_collapses_per_date :
    fetch_with_cache
      (fun a _ => if a = 2
        then some [⟨2, "2222", "tdFirstPrize"⟩, ⟨2, "3333", "tdSecondPrize"⟩]
        else none)
      10 1 5 [⟨1, "1111", "tdFirstPrize"⟩]
      = some ⟨[⟨1, "1111", "tdFirstPrize"⟩, ⟨2, "3333", "tdSecondPrize"⟩],
              [⟨1, "1111", "tdFirstPrize"⟩, ⟨2, "3333", "tdSecondPrize"⟩], [(2, 5)]⟩ ∧
    (⟨2, "2222", "tdFirstPrize"⟩ : Record) ∉
      ([⟨1, "1111", "tdFirstPrize"⟩, ⟨2, "3333", "tdSecondPrize"⟩] : List Record) ∧
    (⟨2, "2222", "tdFirstPrize"⟩ : Record).date = (⟨2, "3333", "tdSecondPrize"⟩ : Record).date ∧
    (⟨2, "2222", "tdFirstPrize"⟩ : Record).prizeType ≠ (⟨2, "3333", "tdSecondPrize"⟩ : Record).prizeType := by
  refine ⟨by decide, by decide, rfl, by decide⟩

/-- Claim C2, counterexample: with an empty cache and an upstream fetch that
raises (modelled by the `none` oracle), `fetch_with_cache` propagates the
exception (`none`) instead of returning an empty result as the claim
states. -/
theorem C2_failed_fetch_propagates :
    fetch_with_cache (fun _ _ => none) 10 1 5 [] = none := rfl

/-- Claim C2 (amended): when the upstream fetch returns an empty result set,
`fetch_with_cache` falls back to the cached rows of the requested range (for
a stale nonempty cache) and returns an empty result — not an error — for an
empty cache; a fetch that raises is not caught and propagates. -/
theorem C2_empty_fetch_falls_back (f : Nat → Nat → Option (List Record))
    (hf : ∀ a b, f a b = some []) (today date_from date_to : Nat) (cache : List Record) :
    (cache = [] →
      fetch_with_cache f today date_from date_to cache = some ⟨[], [], [(date_from, date_to)]⟩) ∧
    (cache ≠ [] → maxDate cache < today →
      fetch_with_cache f today date_from date_to cache =
        some ⟨sliceRange date_from date_to cache, cache,
              [(max (maxDate cache + 1) date_from, date_to)]⟩) := by
  constructor
  · intro h
    subst h
    simp [fetch_with_cache, hf]
  · intro hne hlt
    have hmask : ¬ today ≤ maxDate cache := by omega
    simp [fetch_with_cache, List.isEmpty_iff, hne, hmask, hf]

/-- Claim C2 amended, witness at a concrete input: empty cache, fetch
returning the empty frame. -/
theorem C2_empty_fetch_falls_back_witness :
    fetch_with_cache (fun _ _ => some []) 9 1 5 [] = some ⟨[], [], [(1, 5)]⟩ :=
  (C2_empty_fetch_falls_back (fun _ _ => some []) (fun _ _ => rfl) 9 1 5 []).1 rfl

/-- Claim C3: when the cache is nonempty and its watermark (maximum cached
date) is at least `today`, `fetch_with_cache` issues no upstream fetch and
returns exactly the cached rows inside the requested inclusive range,
leaving the cache untouched; consequently a second call returns the
identical result with zero further fetches. -/
theorem C3_watermark_skips_fetch (f : Nat → Nat → Option (List Record))
    (today date_from date_to : Nat) (cache : List Record)
    (hne : cache ≠ []) (hw : today ≤ maxDate cache) :
    fetch_with_cache f today date_from date_to cache =
      some ⟨sliceRange date_from date_to cache, cache, []⟩ ∧
    ∀ s, fetch_with_cache f today date_from date_to cache = some s →
      s.fetchCalls = [] ∧ fetch_with_cache f today date_from date_to s.newCache = some s := by
  have h1 : fetch_with_cache f today date_from date_to cache =
      some ⟨sliceRange date_from date_to cache, cache, []⟩ := by
    simp [fetch_with_cache, List.isEmpty_iff, hne, hw]
  refine ⟨h1, ?_⟩
  intro s hs
  rw [h1] at hs
  obtain rfl := (Option.some.inj hs).symm
  exact ⟨rfl, h1⟩

/-- Claim C3, witness: a one-row cache on day 5 with `today = 3` answers the
request for `[1, 9]` from cache alone. -/
theorem C3_watermark_skips_fetch_witness :
    fetch_with_cache (fun _ _ => none) 3 1 9 [⟨5, "1111", "tdFirstPrize"⟩] =
      some ⟨[⟨5, "1111", "tdFirstPrize"⟩], [⟨5, "1111", "tdFirstPrize"⟩], []⟩ :=
  ((C3_watermark_skips_fetch (fun _ _ => none) 3 1 9 [⟨5, "1111", "tdFirstPrize"⟩]
      (by decide) (by decide)).1).trans (by decide)

/-- Claim C4: `filter_numbers_by_history` applies the three exclusion rules
in fixed order, each exclusion list computed against the running candidate
set as of that step; with an empty 1-year history steps 2 and 3 remove
nothing and their lists are empty; all four returned collections are
lexicographically sorted; and the concrete scenario of the spec evaluates to
`excluded_6mo = ["1234"]`, `excluded_top3_1yr = ["5678"]`, kept and
multi-lists empty. -/
theorem C4_filter_fixed_order (numbers : List String) (past6 past1 : List Record) :
    (filter_numbers_by_history numbers past6 past1).2.1 =
      sortStr ((numbers.dedup).filter (fun n => n ∈ winningNumbers6 past6)) ∧
    (past1 ≠ [] → (filter_numbers_by_history numbers past6 past1).2.2.1 =
      sortStr ((filteredAfter6 numbers past6).filter (fun n => n ∈ top3Numbers1Year past1))) ∧
    (past1 ≠ [] → (filter_numbers_by_history numbers past6 past1).2.2.2 =
      sortStr ((filteredAfterTop3 numbers past6 past1).filter (fun n => appearsMultiple past1 n))) ∧
    (past1 ≠ [] → (filter_numbers_by_history numbers past6 past1).1 =
      sortStr ((filteredAfterTop3 numbers past6 past1).filter (fun n => ¬ appearsMultiple past1 n))) ∧
    (past1 = [] → (filter_numbers_by_history numbers past6 past1).2.2.1 = [] ∧
      (filter_numbers_by_history numbers past6 past1).2.2.2 = [] ∧
      (filter_numbers_by_history numbers past6 past1).1 = sortStr (filteredAfter6 numbers past6)) ∧
    List.Sorted (fun a b => strLeB a b = true) (filter_numbers_by_history numbers past6 past1).1 ∧
    List.Sorted (fun a b => strLeB a b = true) (filter_numbers_by_history numbers past6 past1).2.1 ∧
    List.Sorted (fun a b => strLeB a b = true) (filter_numbers_by_history numbers past6 past1).2.2.1 ∧
    List.Sorted (fun a b => strLeB a b = true) (filter_numbers_by_history numbers past6 past1).2.2.2 ∧
    filter_numbers_by_history ["1234", "5678"]
        [⟨0, "1234", "tbodyStarterPrizes"⟩] [⟨0, "5678", "tdFirstPrize"⟩] =
      ([], ["1234"], ["5678"], []) := by
  by_cases hp : past1 = []
  · subst hp
    refine ⟨rfl, fun h => absurd rfl h, fun h => absurd rfl h, fun h => absurd rfl h,
      fun _ => ⟨rfl, rfl, rfl⟩, sortStr_sorted _, sortStr_sorted _, ?_, ?_, by decide⟩
    · simp [filter_numbers_by_history]
    · simp [filter_numbers_by_history]
  · refine ⟨rfl, fun _ => ?_, fun _ => ?_, fun _ => ?_, fun h => absurd h hp,
      sortStr_sorted _, sortStr_sorted _, ?_, ?_, by decide⟩
    · simp [filter_numbers_by_history, hp]
    · simp [filter_numbers_by_history, hp]
    · simp [filter_numbers_by_history, hp]
    · simp [filter_numbers_by_history, hp, sortStr_sorted]
    · simp [filter_numbers_by_history, hp, sortStr_sorted]

/-- Claim C4, witness: the spec scenario discharges the `past1 ≠ []`
hypotheses of the second rule. -/
theorem C4_filter_fixed_order_witness :
    ([⟨0, "5678", "tdFirstPrize"⟩] : List Record) ≠ [] ∧
    (filter_numbers_by_history ["1234", "5678"]
        [⟨0, "1234", "tbodyStarterPrizes"⟩] [⟨0, "5678", "tdFirstPrize"⟩]).2.2.1 =
      sortStr ((filteredAfter6 ["1234", "5678"] [⟨0, "1234", "tbodyStarterPrizes"⟩]).filter
        (fun n => n ∈ top3Numbers1Year [⟨0, "5678", "tdFirstPrize"⟩])) :=
  ⟨by decide,
   (C4_filter_fixed_order ["1234", "5678"] [⟨0, "1234", "tbodyStarterPrizes"⟩]
      [⟨0, "5678", "tdFirstPrize"⟩]).2.1 (by decide)⟩

/-- Membership in the `appeared_in_6_months` output of
`filter_numbers_by_history`. -/
theorem mem_output_6mo (numbers : List String) (past6 past1 : List Record) (x : String) :
    x ∈ (filter_numbers_by_history numbers past6 past1).2.1 ↔
      x ∈ numbers ∧ x ∈ winningNumbers6 past6 := by
  simp [filter_numbers_by_history, mem_sortStr, List.mem_filter, List.mem_dedup]

/-- Membership in the `appeared_in_top3_1year` output of
`filter_numbers_by_history`. -/
theorem mem_output_top3 (numbers : List String) (past6 past1 : List Record) (x : String) :
    x ∈ (filter_numbers_by_history numbers past6 past1).2.2.1 ↔
      past1 ≠ [] ∧ x ∈ numbers ∧ x ∉ winningNumbers6 past6 ∧ x ∈ top3Numbers1Year past1 := by
  by_cases hp : past1 = [] <;>
    simp [filter_numbers_by_history, hp, filteredAfter6, mem_sortStr,
      List.mem_filter, List.mem_dedup] <;>
    tauto

/-- Membership in the `appeared_multiple_1year` output of
`filter_numbers_by_history`. -/
theorem mem_output_multi (numbers : List String) (past6 past1 : List Record) (x : String) :
    x ∈ (filter_numbers_by_history numbers past6 past1).2.2.2 ↔
      past1 ≠ [] ∧ x ∈ numbers ∧ x ∉ winningNumbers6 past6 ∧ x ∉ top3Numbers1Year past1 ∧
        appearsMultiple past1 x = true := by
  by_cases hp : past1 = [] <;>
    simp [filter_numbers_by_history, hp, filteredAfterTop3, filteredAfter6, mem_sortStr,
      List.mem_filter, List.mem_dedup] <;>
    tauto

/-- Membership in the `filtered_numbers` (kept) output of
`filter_numbers_by_history`. -/
theorem mem_output_kept (numbers : List String) (past6 past1 : List Record) (x : String) :
    x ∈ (filter_numbers_by_history numbers past6 past1).1 ↔
      x ∈ numbers ∧ x ∉ winningNumbers6 past6 ∧
        (past1 ≠ [] → (x ∉ top3Numbers1Year past1 ∧ ¬ appearsMultiple past1 x = true)) := by
  by_cases hp : past1 = [] <;>
    simp [filter_numbers_by_history, hp, filteredAfterTop3, filteredAfter6, mem_sortStr,
      List.mem_filter, List.mem_dedup] <;>
    tauto

/-- Claim C9: the four collections returned by `filter_numbers_by_history`
are pairwise disjoint as sets and their union is the input candidate set, so
every candidate lands in exactly one of them. -/
theorem C9_outputs_partition (numbers : List String) (past6 past1 : List Record) :
    ((filter_numbers_by_history numbers past6 past1).1.toFinset ∪
     (filter_numbers_by_history numbers past6 past1).2.1.toFinset ∪
     (filter_numbers_by_history numbers past6 past1).2.2.1.toFinset ∪
     (filter_numbers_by_history numbers past6 past1).2.2.2.toFinset = numbers.toFinset) ∧
    Disjoint (filter_numbers_by_history numbers past6 past1).1.toFinset
      (filter_numbers_by_history numbers past6 past1).2.1.toFinset ∧
    Disjoint (filter_numbers_by_history numbers past6 past1).1.toFinset
      (filter_numbers_by_history numbers past6 past1).2.2.1.toFinset ∧
    Disjoint (filter_numbers_by_history numbers past6 past1).1.toFinset
      (filter_numbers_by_history numbers past6 past1).2.2.2.toFinset ∧
    Disjoint (filter_numbers_by_history numbers past6 past1).2.1.toFinset
      (filter_numbers_by_history numbers past6 past1).2.2.1.toFinset ∧
    Disjoint (filter_numbers_by_history numbers past6 past1).2.1.toFinset
      (filter_numbers_by_history numbers past6 past1).2.2.2.toFinset ∧
    Disjoint (filter_numbers_by_history numbers past6 past1).2.2.1.toFinset
      (filter_numbers_by_history numbers past6 past1).2.2.2.toFinset := by
  refine ⟨?_, ?_, ?_, ?_, ?_, ?_, ?_⟩
  · ext x
    simp only [Finset.mem_union, List.mem_toFinset, mem_output_kept, mem_output_6mo,
      mem_output_top3, mem_output_multi]
    constructor
    · rintro (((h | h) | h) | h)
      exacts [h.1, h.1, h.2.1, h.2.1]
    · intro hx
      by_cases hp : past1 = []
      · by_cases hw : x ∈ winningNumbers6 past6
        · exact Or.inl (Or.inl (Or.inr ⟨hx, hw⟩))
        · exact Or.inl (Or.inl (Or.inl ⟨hx, hw, fun h => absurd hp h⟩))
      · by_cases hw : x ∈ winningNumbers6 past6
        · exact Or.inl (Or.inl (Or.inr ⟨hx, hw⟩))
        · by_cases ht : x ∈ top3Numbers1Year past1
          · exact Or.inl (Or.inr ⟨hp, hx, hw, ht⟩)
          · by_cases hm : appearsMultiple past1 x = true
            · exact Or.inr ⟨hp, hx, hw, ht, hm⟩
            · exact Or.inl (Or.inl (Or.inl ⟨hx, hw, fun _ => ⟨ht, hm⟩⟩))
  all_goals
    rw [Finset.disjoint_left]
    intro x hx hx'
    rw [List.mem_toFinset] at hx hx'
    first
      | (rw [mem_output_kept] at hx; rw [mem_output_6mo] at hx'; tauto)
      | (rw [mem_output_kept] at hx; rw [mem_output_top3] at hx'; tauto)
      | (rw [mem_output_kept] at hx; rw [mem_output_multi] at hx'; tauto)
      | (rw [mem_output_6mo] at hx; rw [mem_output_top3] at hx'; tauto)
      | (rw [mem_output_6mo] at hx; rw [mem_output_multi] at hx'; tauto)
      | (rw [mem_output_top3] at hx; rw [mem_output_multi] at hx'; tauto)

/-- Claim C5: for any digit counts over the ten digits (all-zero included)
and any smoothing parameter `alpha > 0`, `bayesian_smoothing` returns
`(counts[d] + alpha) / (total + 10*alpha)` per digit; the probabilities sum
to 1 and none of them is 0. -/
theorem C5_bayesian_smoothing_sound (c : Fin 10 → ℚ) (alpha : ℚ)
    (hc : ∀ d, 0 ≤ c d) (halpha : 0 < alpha) :
    (∀ d, bayesian_smoothing c alpha d = (c d + alpha) / ((∑ e, c e) + 10 * alpha)) ∧
    (∑ d, bayesian_smoothing c alpha d = 1) ∧
    (∀ d, bayesian_smoothing c alpha d ≠ 0) := by
  have hs : 0 ≤ ∑ e, c e := Finset.sum_nonneg (fun i _ => hc i)
  have hD : 0 < (∑ e, c e) + 10 * alpha := by linarith
  refine ⟨fun d => rfl, ?_, fun d => ?_⟩
  · unfold bayesian_smoothing
    rw [← Finset.sum_div, Finset.sum_add_distrib, Finset.sum_const, Finset.card_univ]
    rw [Fintype.card_fin, nsmul_eq_mul]
    push_cast
    exact div_self hD.ne'
  · exact ne_of_gt (div_pos (by linarith [hc d]) hD)

/-- Claim C5, witness at the all-zero counts with `alpha = 1`: the smoothed
distribution is uniform `1/10` and sums to 1. -/
theorem C5_bayesian_smoothing_sound_witness :
    (∀ d : Fin 10, (0 : ℚ) ≤ 0) ∧ (0 : ℚ) < 1 ∧
    (∑ d, bayesian_smoothing (fun _ => (0 : ℚ)) 1 d = 1) ∧
    bayesian_smoothing (fun _ => (0 : ℚ)) 1 0 = 1 / 10 := by
  refine ⟨fun _ => le_refl 0, one_pos,
    (C5_bayesian_smoothing_sound (fun _ => 0) 1 (fun _ => le_refl 0) one_pos).2.1, ?_⟩
  rw [(C5_bayesian_smoothing_sound (fun _ => 0) 1 (fun _ => le_refl 0) one_pos).1 0]
  norm_num

/-- Claim C8: raising the smoothing parameter pulls every smoothed
probability (weakly) closer to the uniform value `1/10`. -/
theorem C8_smoothing_monotone_to_uniform (c : Fin 10 → ℚ) (a1 a2 : ℚ)
    (hc : ∀ d, 0 ≤ c d) (h1 : 0 < a1) (h12 : a1 < a2) :
    ∀ d, |bayesian_smoothing c a2 d - 1 / 10| ≤ |bayesian_smoothing c a1 d - 1 / 10| := by
  intro d
  have hs : 0 ≤ ∑ e, c e := Finset.sum_nonneg (fun i _ => hc i)
  have hD1 : 0 < (∑ e, c e) + 10 * a1 := by linarith
  have hD2 : 0 < (∑ e, c e) + 10 * a2 := by linarith
  have key : ∀ a : ℚ, 0 < a →
      bayesian_smoothing c a d - 1 / 10 =
        (10 * c d - ∑ e, c e) / (10 * ((∑ e, c e) + 10 * a)) := by
    intro a ha
    have hD : (0 : ℚ) < (∑ e, c e) + 10 * a := by linarith
    unfold bayesian_smoothing
    field_simp
    ring
  rw [key a1 h1, key a2 (by linarith), abs_div, abs_div,
    abs_of_pos (by linarith : (0 : ℚ) < 10 * ((∑ e, c e) + 10 * a1)),
    abs_of_pos (by linarith : (0 : ℚ) < 10 * ((∑ e, c e) + 10 * a2))]
  exact div_le_div_of_nonneg_left (abs_nonneg _) (by linarith) (by linarith)

/-- Claim C8, witness at all-zero counts and `a1 = 1 < 2 = a2`, evaluated at
digit 0 (both probabilities are exactly `1/10`, so the distance is 0 on both
sides). -/
theorem C8_smoothing_monotone_to_uniform_witness :
    (∀ d : Fin 10, (0 : ℚ) ≤ 0) ∧ (0 : ℚ) < 1 ∧ (1 : ℚ) < 2 ∧
    |bayesian_smoothing (fun _ => (0 : ℚ)) 2 0 - 1 / 10| ≤
      |bayesian_smoothing (fun _ => (0 : ℚ)) 1 0 - 1 / 10| :=
  ⟨fun _ => le_refl 0, one_pos, one_lt_two,
   C8_smoothing_monotone_to_uniform (fun _ => 0) 1 2 (fun _ => le_refl 0) one_pos one_lt_two 0⟩

/-- Claim C10: with threshold `None`, `select_low_occurrence_digits` always
returns a nonempty list; some digit always has count at most the mean
`total / 10`, so the lower-half fallback branch is unreachable and the
result is exactly the sorted at-most-mean selection whenever the total is
nonzero (a zero total short-circuits to all ten digits). -/
theorem C10_low_occurrence_nonempty (c : Fin 10 → ℚ) :
    select_low_occurrence_digits c none ≠ [] ∧
    (List.finRange 10).filter (fun d => c d ≤ (∑ e, c e) / 10) ≠ [] ∧
    ((∑ e, c e) ≠ 0 →
      select_low_occurrence_digits c none =
        sortFin ((List.finRange 10).filter (fun d => c d ≤ (∑ e, c e) / 10))) := by
  have hmean : ∃ d : Fin 10, c d ≤ (∑ e, c e) / 10 := by
    by_contra hall
    push_neg at hall
    have hlt : ∑ e : Fin 10, ((∑ e, c e) / 10) < ∑ e, c e :=
      Finset.sum_lt_sum_of_nonempty ⟨0, Finset.mem_univ 0⟩ (fun i _ => hall i)
    rw [Finset.sum_const, Finset.card_univ, Fintype.card_fin, nsmul_eq_mul] at hlt
    push_cast at hlt
    rw [mul_comm, div_mul_cancel₀ _ (by norm_num : (10 : ℚ) ≠ 0)] at hlt
    exact absurd hlt (lt_irrefl _)
  have hfil : (List.finRange 10).filter (fun d => c d ≤ (∑ e, c e) / 10) ≠ [] := by
    obtain ⟨d, hd⟩ := hmean
    intro hnil
    rw [List.filter_eq_nil] at hnil
    exact hnil d (List.mem_finRange d) (by simpa using hd)
  have hbody : selectLowBody c ((∑ e, c e) / 10) =
      sortFin ((List.finRange 10).filter (fun d => c d ≤ (∑ e, c e) / 10)) := by
    simp only [selectLowBody]
    rw [if_neg hfil]
  refine ⟨?_, hfil, fun ht => ?_⟩
  · simp only [select_low_occurrence_digits]
    by_cases ht : (∑ e, c e) = 0
    · rw [if_pos ht]
      decide
    · rw [if_neg ht, hbody]
      intro hnil
      exact hfil ((sortListBy_eq_nil _ _).mp hnil)
  · simp only [select_low_occurrence_digits]
    rw [if_neg ht, hbody]

/-- Claim C10, witness at the all-one counts: the total `10` is nonzero and
the fallback-free equation holds there. -/
theorem C10_low_occurrence_nonempty_witness :
    ((∑ e : Fin 10, (1 : ℚ)) ≠ 0) ∧
    select_low_occurrence_digits (fun _ => (1 : ℚ)) none =
      sortFin ((List.finRange 10).filter
        (fun d => (1 : ℚ) ≤ (∑ e : Fin 10, (1 : ℚ)) / 10)) := by
  have hne : (∑ e : Fin 10, (1 : ℚ)) ≠ 0 := by
    rw [Finset.sum_const, Finset.card_univ, Fintype.card_fin, nsmul_eq_mul]
    norm_num
  exact ⟨hne, (C10_low_occurrence_nonempty (fun _ => 1)).2.2 hne⟩

/-- Claim C6: whenever the number of distinct draw dates is below
`max(window_sizes) + 10`, `backtest_digit_prediction` refuses to run and
returns the explicit empty result `.ok []` — a value, not an exception. -/
theorem C6_insufficient_data_refusal (chisquare : List ℚ → List ℚ → ℚ × ℚ)
    (df : List Record) (window_sizes top_k_list : List Nat)
    (weights : String → ℚ) (alpha : ℚ)
    (h : (uniqueDatesSorted df).length < maxNat window_sizes + 10) :
    backtest_digit_prediction chisquare df window_sizes top_k_list weights alpha =
      .ok [] := by
  simp [backtest_digit_prediction, h]

/-- Claim C6, witness: a 5-draw history with `window_sizes = [12]` (and the
source defaults `top_k_list = [1, 3, 5]`, default weights, `alpha = 1`)
makes the engine refuse with the empty result. -/
theorem C6_insufficient_data_refusal_witness :
    (uniqueDatesSorted
      [⟨1, "1111", "tdFirstPrize"⟩, ⟨2, "2222", "tdFirstPrize"⟩, ⟨3, "3333", "tdFirstPrize"⟩,
       ⟨4, "4444", "tdFirstPrize"⟩, ⟨5, "5555", "tdFirstPrize"⟩]).length < maxNat [12] + 10 ∧
    backtest_digit_prediction (fun _ _ => (0, 1))
      [⟨1, "1111", "tdFirstPrize"⟩, ⟨2, "2222", "tdFirstPrize"⟩, ⟨3, "3333", "tdFirstPrize"⟩,
       ⟨4, "4444", "tdFirstPrize"⟩, ⟨5, "5555", "tdFirstPrize"⟩]
      [12] [1, 3, 5] DEFAULT_PRIZE_WEIGHTS 1 = .ok [] :=
  ⟨by decide,
   C6_insufficient_data_refusal (fun _ _ => (0, 1)) _ [12] [1, 3, 5]
     DEFAULT_PRIZE_WEIGHTS 1 (by decide)⟩

/-- Claim C7, counterexample: the claim says every wrong-length prize string
is silently skipped and contributes to no digit's count, but
`extract_first_digits` only validates the leading character: the 3-character
string `"123"` is counted toward digit 1. -/
theorem C7_wrong_length_is_counted :
    extract_first_digits [⟨0, "123", "tdFirstPrize"⟩] none = .ok ['1'] ∧
    count_digits ['1'] 1 = 1 ∧
    ("123" : String).length ≠ 4 := by
  refine ⟨rfl, by decide, by decide⟩

/-- The extraction loop succeeds and returns the head digits whenever no
entry is nonempty-but-whitespace-only (the only shape on which the source's
`strip()[0]` raises). -/
theorem extractLoop_ok (ss : List String)
    (h : ∀ s ∈ ss, 1 ≤ s.length → pyStrip s.data ≠ []) :
    extractLoop ss = .ok (ss.filterMap headDigitChar) := by
  induction ss with
  | nil => rfl
  | cons s rest ih =>
    have hs := h s (List.mem_cons_self s rest)
    have hrest : ∀ t ∈ rest, 1 ≤ t.length → pyStrip t.data ≠ [] :=
      fun t ht => h t (List.mem_cons_of_mem s ht)
    rw [extractLoop]
    by_cases hlen : 1 ≤ s.length
    · have hne := hs hlen
      rw [extractOne, if_pos hlen]
      rcases hstrip : pyStrip s.data with _ | ⟨c, cs⟩
      · exact absurd hstrip hne
      · rw [ih hrest]
        rw [List.filterMap_cons, headDigitChar, hstrip]
        by_cases hdig : c.isDigit
        · simp [hdig]
        · simp [hdig]
    · have hdata : s.data = [] := by
        have : s.length = 0 := by omega
        rwa [String.length, List.length_eq_zero] at this
      rw [extractOne, if_neg hlen, ih hrest, List.filterMap_cons, headDigitChar, hdata]
      rfl

/-- Claim C7 (amended): `extract_first_digits` silently skips every prize
string that is empty or whose first character after stripping whitespace is
not a digit — those contribute to no digit's count — and raises no error,
provided no prize string is nonempty but whitespace-only (on those the
source raises `IndexError`); a wrong-length string with a numeric leading
character contributes its first digit. -/
theorem C7_leading_char_validation (df : List Record)
    (h : ∀ r ∈ df, 1 ≤ r.prizeNumber.length → pyStrip r.prizeNumber.data ≠ []) :
    extract_first_digits df none =
      .ok (df.filterMap (fun r => headDigitChar r.prizeNumber)) := by
  rw [extract_first_digits]
  rw [extractLoop_ok (df.map (fun r => r.prizeNumber))
    (fun s hs => by
      obtain ⟨r, hr, rfl⟩ := List.mem_map.mp hs
      exact h r hr)]
  rw [List.filterMap_map]
  rfl

/-- Claim C7 amended, witness: a non-numeric prize string is skipped with no
error while a well-formed one contributes its first digit. -/
theorem C7_leading_char_validation_witness :
    extract_first_digits [⟨0, "abcd", "tdFirstPrize"⟩, ⟨0, "1234", "tdFirstPrize"⟩] none =
      .ok ['1'] :=
  (C7_leading_char_validation
      [⟨0, "abcd", "tdFirstPrize"⟩, ⟨0, "1234", "tdFirstPrize"⟩] (by decide)).trans
    (by rfl)
